import Mathlib

/-!
Shallow embedding of the bulk user-import client of the
jairocloud-groups-manager repository and of the neighbouring
composables (error handling, history public-status toggling,
page-range formatting), with theorems checking the specification's
claims against these definitions.

The embedding follows the TypeScript source:
* `src/app/composables/useBulk.ts` — selection map, `toggleSelection`,
  `executeBulkUpdate`, `makePageInfo`;
* `src/app/components/bulk/BulkValidationStep.vue` — `canProceed`,
  `handleNext`, `pollValidationStatus`, `selectAllMissingUsers`,
  `deselectAllMissingUsers`;
* `src/app/components/bulk/BulkResultStep.vue` — `pollExecuteStatus`;
* `src/app/components/bulk/BulkUploadStep.vue` — `validateFileFormat`;
* `src/app/composables/errorHandling.ts` — `handleFetchError`;
* `src/app/composables/useHistory.ts` — `togglePublicStatus` and the
  row-level action that consumes it.

JavaScript objects used as string-keyed dictionaries are embedded as
association lists with JS semantics: assignment updates an existing key
in place or appends a fresh one, a missing key reads as `undefined`,
which is falsy, hence the `Bool`-valued `lookupFlag` defaulting to
`false`.
-/

/-- Per-outcome counters of the validation summary
(`summary` ref in `useValidation`, `Summary` interface in the types). -/
structure Summary where
  create : Nat
  update : Nat
  delete : Nat
  skip : Nat
  error : Nat
deriving DecidableEq, Repr

/-- `canProceed = computed(() => summary.value.error === 0)`
(BulkValidationStep.vue). -/
def canProceed (s : Summary) : Bool :=
  s.error == 0

/-- The client-side selection state `selectedMissingUsers`:
a JS object keyed by user identifier holding booleans, embedded as an
association list in insertion order. -/
abbrev SelectionMap := List (String × Bool)

/-- Reading `selectedMissingUsers.value[k]`: the first entry with key
`k`, a missing key (`undefined`) being falsy. -/
def lookupFlag (m : SelectionMap) (k : String) : Bool :=
  match m.find? (fun p => p.1 == k) with
  | some p => p.2
  | none => false

/-- Whether the object has the key `k`. -/
def hasKey (m : SelectionMap) (k : String) : Bool :=
  m.any (fun p => p.1 == k)

/-- JS assignment `obj[k] = b`: update the existing entry in place, or
append a fresh key. -/
def setFlag (m : SelectionMap) (k : String) (b : Bool) : SelectionMap :=
  if hasKey m k then m.map (fun p => if p.1 == k then (k, b) else p)
  else m ++ [(k, b)]

/-- `toggleSelection(userId)` from `useValidation` (useBulk.ts):
`selectedMissingUsers.value[userId] = !selectedMissingUsers.value[userId]`. -/
def toggleSelection (m : SelectionMap) (userId : String) : SelectionMap :=
  setFlag m userId (!lookupFlag m userId)

/-- A row of the missing-user set (`MissingUser` interface). -/
structure MissingUser where
  id : String
  name : String
  eppn : List String
  groups : List String
deriving DecidableEq, Repr

/-- `selectAllMissingUsers` (BulkValidationStep.vue): replaces the whole
selection object by `Object.fromEntries(missingUsers.map(u => [u.id, true]))`. -/
def selectAllMissingUsers (missingUsers : List MissingUser) : SelectionMap :=
  missingUsers.map (fun user => (user.id, true))

/-- `deselectAllMissingUsers` (BulkValidationStep.vue): replaces the whole
selection object by `{}`. -/
def deselectAllMissingUsers : SelectionMap :=
  []

/-- `Object.keys(selectedMissingUsers.value)`. -/
def objectKeys (m : SelectionMap) : List String :=
  m.map Prod.fst

/-- The `deleteUsers` field of the execute request body:
`Object.keys(sel).filter(key => sel[key])` (useBulk.ts, `executeBulkUpdate`). -/
def deleteUsersList (m : SelectionMap) : List String :=
  (objectKeys m).filter (fun k => lookupFlag m k)

/-- The body posted to the execution endpoint (`ExcuteRequest` interface;
the source's spelling is kept). -/
structure ExcuteRequest where
  taskId : Option String
  tempFileId : Option String
  repositoryId : String
  deleteUsers : List String
deriving DecidableEq, Repr

/-- `executeBulkUpdate(url)` from `useValidation` (useBulk.ts), modelled as
the request body it posts. The guard
`if (!taskId || !selectedRepository.value) throw` only ever fires on the
falsy repository value (the `taskId` operand is a Ref object, always
truthy); a thrown guard is `none`. -/
def executeBulkUpdate (taskId tempFileId : Option String)
    (selectedRepository : Option String) (sel : SelectionMap) :
    Option ExcuteRequest :=
  match selectedRepository with
  | none => none
  | some repo =>
      if repo.isEmpty then none
      else some ⟨taskId, tempFileId, repo, deleteUsersList sel⟩

/-- `handleNext` (BulkValidationStep.vue): returns without posting when
`!canProceed.value`, otherwise issues `executeBulkUpdate`. -/
def handleNext (s : Summary) (taskId tempFileId : Option String)
    (selectedRepository : Option String) (sel : SelectionMap) :
    Option ExcuteRequest :=
  if canProceed s then executeBulkUpdate taskId tempFileId selectedRepository sel
  else none

/-- The asynchronous task status carried by `BulkProcessingStatus`. -/
inductive TaskStatus
  | pending
  | started
  | success
  | failure
deriving DecidableEq, Repr

/-- A status is terminal when it stops the polling loop
(`SUCCESS` or `FAILURE`). -/
def TaskStatus.isTerminal : TaskStatus → Bool
  | .success => true
  | .failure => true
  | _ => false

/-- How a polling loop ends: on `SUCCESS`, on `FAILURE`
(failure toast), or with the timeout toast after exhausting the
attempt budget. -/
inductive PollOutcome
  | completed
  | failureToast
  | timeoutToast
deriving DecidableEq, Repr

/-- The body of the `for (let index = 0; index < maxAttempts; index++)`
loop of `pollValidationStatus` (BulkValidationStep.vue).
`statuses i` is the status observed by the `i`-th status fetch;
the remaining attempt budget drives the recursion; the returned `Nat`
counts the status fetches issued by this call. -/
def pollStatusLoop (statuses : Nat → TaskStatus) :
    Nat → Nat → PollOutcome × Nat
  | 0, _ => (.timeoutToast, 0)
  | budget + 1, index =>
      let st := statuses index
      if st = .success then (.completed, 1)
      else if st = .failure then (.failureToast, 1)
      else
        let rest := pollStatusLoop statuses budget (index + 1)
        (rest.1, rest.2 + 1)

/-- `pollValidationStatus` (BulkValidationStep.vue): the bounded polling
loop started at index 0 with the configured `maxAttempts` budget. -/
def pollValidationStatus (statuses : Nat → TaskStatus) (maxAttempts : Nat) :
    PollOutcome × Nat :=
  pollStatusLoop statuses maxAttempts 0

/-- Network events of the execute polling loop: the status fetch of
iteration `i`, and the fetch of the interim upload result issued by
iteration `i` while the status is still non-terminal. -/
inductive ExecEvent
  | statusFetch (i : Nat)
  | resultFetch (i : Nat)
deriving DecidableEq, Repr

/-- The body of `pollExecuteStatus` (BulkResultStep.vue), as the trace of
network events it issues: each iteration fetches the status; on `SUCCESS`
it returns at once, on `FAILURE` it toasts and returns, otherwise it
re-fetches the interim upload result and sleeps; exhausting the budget
raises the timeout toast. No result fetch happens on the terminal paths. -/
def pollExecuteLoop (statuses : Nat → TaskStatus) :
    Nat → Nat → PollOutcome × List ExecEvent
  | 0, _ => (.timeoutToast, [])
  | budget + 1, index =>
      let st := statuses index
      if st = .success then (.completed, [.statusFetch index])
      else if st = .failure then (.failureToast, [.statusFetch index])
      else
        let rest := pollExecuteLoop statuses budget (index + 1)
        (rest.1, .statusFetch index :: .resultFetch index :: rest.2)

/-- `pollExecuteStatus` (BulkResultStep.vue), started at index 0 with the
configured `maxAttempts` budget. -/
def pollExecuteStatus (statuses : Nat → TaskStatus) (maxAttempts : Nat) :
    PollOutcome × List ExecEvent :=
  pollExecuteLoop statuses maxAttempts 0

/-- Number of status fetches in an execute-loop trace. -/
def statusFetchCount (es : List ExecEvent) : Nat :=
  (es.filter (fun e => match e with | .statusFetch _ => true | _ => false)).length

/-- Whether an execute-loop trace ever fetches the upload result. -/
def hasResultFetch (es : List ExecEvent) : Bool :=
  es.any (fun e => match e with | .resultFetch _ => true | _ => false)

/-- No terminal status is observed among the first `n` fetches. -/
def noTerminalBefore (statuses : Nat → TaskStatus) (n : Nat) : Prop :=
  ∀ i, i < n → (statuses i).isTerminal = false

instance (statuses : Nat → TaskStatus) (n : Nat) :
    Decidable (noTerminalBefore statuses n) :=
  Nat.decidableBallLT n (fun i _ => (statuses i).isTerminal = false)

/-- What `handleFetchError` (errorHandling.ts) does for one failed
response: the i18n key of the toast it raises, and whether it redirects
to re-login (`checkout`). -/
structure ErrorHandlerResult where
  toastTitle : String
  redirectToLogin : Bool
deriving DecidableEq, Repr

/-- `handleFetchError` (errorHandling.ts): a `switch` on
`response.status`; the 401 arm additionally redirects via `checkout`
when the current route is not in `publicRoutes`. All unlisted statuses
fall to the generic `default` arm. -/
def handleFetchError (status : Nat) (routeIsPublic : Bool) :
    ErrorHandlerResult :=
  if status = 400 then ⟨"toast.error.bad-request.title", false⟩
  else if status = 401 then ⟨"toast.error.unauthorized.title", !routeIsPublic⟩
  else if status = 403 then ⟨"toast.error.forbidden.title", false⟩
  else if status = 404 then ⟨"toast.error.not-found.title", false⟩
  else if status = 503 then ⟨"toast.error.service-unavailable.title", false⟩
  else ⟨"toast.error.server.title", false⟩

/-- The i18n title used by the page-level handlers for a 409 conflict
(e.g. `pages/repositories/new.vue`); the shared handler never emits it. -/
def conflictToastTitle : String :=
  "toast.error.conflict.title"

/-- A selected file as the upload form sees it: `name` and MIME `type`. -/
structure FileData where
  name : String
  type : String
deriving DecidableEq, Repr

/-- The reactive state of the upload form (BulkUploadStep.vue). -/
structure UploadFormState where
  repository : Option String
  file : Option FileData
deriving DecidableEq, Repr

/-- A form error as produced by `validateFileFormat`: the field name and
the i18n key of the message. -/
structure FormError where
  name : String
  message : String
deriving DecidableEq, Repr

/-- `allowedExtensions` (BulkUploadStep.vue). -/
def allowedExtensions : List String :=
  [".csv", ".tsv", ".xlsx"]

/-- `allowedMimeTypes` (BulkUploadStep.vue). -/
def allowedMimeTypes : List String :=
  [ "text/csv"
  , "text/tab-separated-values"
  , "application/vnd.ms-excel"
  , "application/vnd.openxmlformats-officedocument.spreadsheetml.sheet" ]

/-- JS falsiness of the repository selection: `!state.repository` is true
for `undefined` and for the empty string. -/
def repoMissing : Option String → Bool
  | none => true
  | some r => r.isEmpty

/-- `validateFileFormat` (BulkUploadStep.vue): pushes a
repository-required error when the selection is falsy; with a file
present, pushes a file-format error exactly when the lowercased name
ends in none of the allowed extensions and the MIME type is not in the
allow-list; with no file, pushes a file-required error. Pure: no network
call is made. -/
def validateFileFormat (state : UploadFormState) : List FormError :=
  let repoErrors :=
    if repoMissing state.repository then
      [⟨"repository", "bulk.repository-required"⟩]
    else []
  let fileErrors :=
    match state.file with
    | some f =>
        let fileName := f.name.toLower
        let hasValidExtension :=
          allowedExtensions.any (fun ext => fileName.endsWith ext)
        let hasValidMimeType := allowedMimeTypes.contains f.type
        if !hasValidExtension && !hasValidMimeType then
          [⟨"file", "bulk.file-format-error"⟩]
        else []
    | none => [⟨"file", "bulk.file-required"⟩]
  repoErrors ++ fileErrors

/-- The pagination fields of a loaded result page (shared by
`ResultSummary` and the history API models). -/
structure ResultPage where
  offset : Nat
  total : Nat
deriving DecidableEq, Repr

/-- `makePageInfo` from `useBulk` (useBulk.ts):
`start = result?.offset ?? 1`, `total = result?.total ?? 0`,
`end = Math.min(start + pageSize, total)`, rendered as
`start - end / total`. -/
def makePageInfo (result : Option ResultPage) (pageSize : Nat) : String :=
  let start := match result with | some r => r.offset | none => 1
  let total := match result with | some r => r.total | none => 0
  let stop := min (start + pageSize) total
  toString start ++ " - " ++ toString stop ++ " / " ++ toString total

/-- `makePageInfo` from `useHistory` (useHistory.ts): the same
computation over the history search result. -/
def makePageInfoHistory (searchResult : Option ResultPage) (pageSize : Nat) :
    String :=
  let start := match searchResult with | some r => r.offset | none => 1
  let total := match searchResult with | some r => r.total | none => 0
  let stop := min (start + pageSize) total
  toString start ++ " - " ++ toString stop ++ " / " ++ toString total

/-- `togglePublicStatus(id, currentPublic)` (useHistory.ts): PUTs
`{ public: !currentPublic }` and returns the server's boolean reply; on a
failed request it catches, raises the error toast, and returns
`undefined` (`result = none`). The backend is abstracted as
`server : Bool → Option Bool`, giving the reply to a posted value or
`none` for a failed request. -/
structure ToggleOutcome where
  result : Option Bool
  errorToast : Bool
deriving DecidableEq, Repr

/-- See `ToggleOutcome`. -/
def togglePublicStatus (server : Bool → Option Bool) (currentPublic : Bool) :
    ToggleOutcome :=
  match server (!currentPublic) with
  | some r => ⟨some r, false⟩
  | none => ⟨none, true⟩

/-- The `onSelect` action of `getActionItems` / `getDownloadActionItems`
(useHistory.ts): awaits `togglePublicStatus(id, row.public)` and writes
the reply into `row.public` only when `typeof reply === 'boolean'`. -/
def applyToggleAction (server : Bool → Option Bool) (rowPublic : Bool) :
    Bool :=
  match (togglePublicStatus server rowPublic).result with
  | some updatedPublic => updatedPublic
  | none => rowPublic

/-- A backend that answers every public-status PUT with the posted
value (the contract the spec describes as the reply being echoed into
the row). -/
def echoServer : Bool → Option Bool :=
  fun b => some b


/-! ### Selection-map lemmas -/

lemma lookupFlag_cons (p : String × Bool) (m : SelectionMap) (k : String) :
    lookupFlag (p :: m) k = if (p.1 == k) = true then p.2 else lookupFlag m k := by
  unfold lookupFlag
  rw [List.find?_cons]
  cases h : (p.1 == k) <;> simp [h]

lemma lookupFlag_cons_pos (p : String × Bool) (m : SelectionMap) (k : String)
    (h : (p.1 == k) = true) : lookupFlag (p :: m) k = p.2 := by
  rw [lookupFlag_cons, if_pos h]

lemma lookupFlag_cons_neg (p : String × Bool) (m : SelectionMap) (k : String)
    (h : (p.1 == k) = false) : lookupFlag (p :: m) k = lookupFlag m k := by
  rw [lookupFlag_cons, if_neg (by simp [h])]

lemma lookupFlag_true_mem (m : SelectionMap) (id : String)
    (h : lookupFlag m id = true) : id ∈ objectKeys m := by
  unfold lookupFlag at h
  cases hf : m.find? (fun p => p.1 == id) with
  | none => rw [hf] at h; simp at h
  | some p =>
      have hm : p ∈ m := List.mem_of_find?_eq_some hf
      have hp := List.find?_some hf
      have hp1 : p.1 = id := by simpa using hp
      exact List.mem_map.2 ⟨p, hm, hp1⟩

lemma setFlag_cons_neg (p : String × Bool) (m : SelectionMap) (k : String)
    (b : Bool) (hpk : (p.1 == k) = false) :
    setFlag (p :: m) k b = p :: setFlag m k b := by
  unfold setFlag hasKey
  rw [List.any_cons, hpk, Bool.false_or]
  by_cases h : (m.any fun q => q.1 == k) = true
  · rw [if_pos h, if_pos h, List.map_cons, if_neg (by simp [hpk])]
  · have h2 : (m.any fun q => q.1 == k) = false := by
      cases hv : (m.any fun q => q.1 == k)
      · rfl
      · exact absurd hv h
    rw [if_neg (by simp [h2]), if_neg (by simp [h2]), List.cons_append]

lemma lookupFlag_setFlag_self (m : SelectionMap) (k : String) (b : Bool) :
    lookupFlag (setFlag m k b) k = b := by
  induction m with
  | nil =>
      show lookupFlag (setFlag [] k b) k = b
      unfold setFlag hasKey
      simp only [List.any_nil, Bool.false_eq_true, if_false, List.nil_append]
      rw [lookupFlag_cons_pos (k, b) [] k (by simp)]
  | cons p m ih =>
      by_cases hpk : (p.1 == k) = true
      · have hkey : hasKey (p :: m) k = true := by
          unfold hasKey
          rw [List.any_cons, hpk, Bool.true_or]
        unfold setFlag
        rw [if_pos hkey, List.map_cons, if_pos hpk]
        rw [lookupFlag_cons_pos (k, b) _ k (by simp)]
      · have hpk2 : (p.1 == k) = false := by simpa using hpk
        rw [setFlag_cons_neg p m k b hpk2, lookupFlag_cons_neg p _ k hpk2]
        exact ih

lemma lookupFlag_map_set (m : SelectionMap) (k : String) (b : Bool)
    (kx : String) (h : (k == kx) = false) :
    lookupFlag (m.map (fun q => if q.1 == k then (k, b) else q)) kx =
      lookupFlag m kx := by
  induction m with
  | nil => rfl
  | cons q m ih =>
      rw [List.map_cons]
      by_cases hq : (q.1 == k) = true
      · have hq1 : q.1 = k := by simpa using hq
        rw [if_pos hq]
        rw [lookupFlag_cons_neg (k, b) _ kx h]
        rw [lookupFlag_cons_neg q m kx (by simpa [hq1] using h)]
        exact ih
      · have hq2 : (q.1 == k) = false := by simpa using hq
        rw [if_neg (by simp [hq2])]
        by_cases hx : (q.1 == kx) = true
        · rw [lookupFlag_cons_pos q _ kx hx, lookupFlag_cons_pos q m kx hx]
        · have hx2 : (q.1 == kx) = false := by simpa using hx
          rw [lookupFlag_cons_neg q _ kx hx2, lookupFlag_cons_neg q m kx hx2]
          exact ih

lemma lookupFlag_setFlag_other (m : SelectionMap) (k : String) (b : Bool)
    (kx : String) (h : kx ≠ k) :
    lookupFlag (setFlag m k b) kx = lookupFlag m kx := by
  have hkk : (k == kx) = false := by
    simpa using fun hc => h hc.symm
  unfold setFlag
  by_cases hkey : hasKey m k = true
  · rw [if_pos hkey]
    exact lookupFlag_map_set m k b kx hkk
  · have hkey2 : hasKey m k = false := by
      cases hv : hasKey m k
      · rfl
      · exact absurd hv hkey
    rw [if_neg (by simp [hkey2])]
    unfold lookupFlag
    rw [List.find?_append]
    cases hf : m.find? (fun p => p.1 == kx) with
    | some p => simp [Option.or]
    | none =>
        simp only [Option.or]
        rw [List.find?_cons]
        rw [show (((k, b) : String × Bool).1 == kx) = false from hkk]
        simp

lemma lookupFlag_selectAll (users : List MissingUser) (k : String) :
    lookupFlag (selectAllMissingUsers users) k =
      users.any (fun u => u.id == k) := by
  induction users with
  | nil => rfl
  | cons u us ih =>
      unfold selectAllMissingUsers
      rw [List.map_cons, List.any_cons]
      by_cases hu : (u.id == k) = true
      · rw [lookupFlag_cons_pos (u.id, true) _ k hu, hu, Bool.true_or]
      · have hu2 : (u.id == k) = false := by simpa using hu
        rw [lookupFlag_cons_neg (u.id, true) _ k hu2, hu2, Bool.false_or]
        exact ih

/-! ### Claim theorems: execution guard, delete list, selection map -/

/-- C1: an execution request is issued by `handleNext` only when the
validation summary's error count is zero; with a non-zero error count
`handleNext` returns without issuing the bulk-execute request, and any
issued request is exactly the one `executeBulkUpdate` builds. -/
theorem handleNext_requires_zero_errors (s : Summary)
    (taskId tempFileId selectedRepository : Option String)
    (sel : SelectionMap) :
    (s.error ≠ 0 →
      handleNext s taskId tempFileId selectedRepository sel = none) ∧
    (∀ r, handleNext s taskId tempFileId selectedRepository sel = some r →
      s.error = 0 ∧
        executeBulkUpdate taskId tempFileId selectedRepository sel = some r) := by
  unfold handleNext canProceed
  by_cases h : s.error = 0
  · simp [h]
  · simp [h]

/-- C1 witness: with one error row, `handleNext` posts nothing. -/
theorem handleNext_requires_zero_errors_witness :
    handleNext ⟨1, 2, 0, 0, 1⟩ (some "task-1") (some "tmp-1") (some "repo-1")
      [("u1", true)] = none :=
  (handleNext_requires_zero_errors ⟨1, 2, 0, 0, 1⟩ (some "task-1")
    (some "tmp-1") (some "repo-1") [("u1", true)]).1 (by decide)

/-- C3: the `deleteUsers` list of any request posted by
`executeBulkUpdate` holds exactly the identifiers whose selection flag
reads `true` in the missing-user selection map. -/
theorem executeBulkUpdate_deleteUsers_selected
    (taskId tempFileId selectedRepository : Option String)
    (sel : SelectionMap) (r : ExcuteRequest)
    (h : executeBulkUpdate taskId tempFileId selectedRepository sel = some r)
    (id : String) :
    id ∈ r.deleteUsers ↔ lookupFlag sel id = true := by
  cases selectedRepository with
  | none => exact absurd h (by simp [executeBulkUpdate])
  | some repo =>
      simp only [executeBulkUpdate] at h
      by_cases hrepo : repo.isEmpty
      · rw [if_pos hrepo] at h
        exact absurd h (by simp)
      · rw [if_neg hrepo] at h
        have hr : r = ⟨taskId, tempFileId, repo, deleteUsersList sel⟩ :=
          (Option.some_inj.mp h).symm
        subst hr
        show id ∈ deleteUsersList sel ↔ lookupFlag sel id = true
        unfold deleteUsersList
        rw [List.mem_filter]
        constructor
        · rintro ⟨-, hflag⟩
          exact hflag
        · intro hflag
          exact ⟨lookupFlag_true_mem sel id hflag, hflag⟩

/-- C3 witness: a concrete selection map with one selected and one
unselected identifier. -/
theorem executeBulkUpdate_deleteUsers_selected_witness :
    ("u1" ∈ (ExcuteRequest.mk (some "task-1") (some "tmp-1") "repo-1"
        ["u1"]).deleteUsers ↔
      lookupFlag [("u1", true), ("u2", false)] "u1" = true) :=
  executeBulkUpdate_deleteUsers_selected (some "task-1") (some "tmp-1")
    (some "repo-1") [("u1", true), ("u2", false)]
    ⟨some "task-1", some "tmp-1", "repo-1", ["u1"]⟩ (by rfl) "u1"

/-- C4 counterexample: the claim that select-all / deselect-all leave
the flags of identifiers outside the currently loaded set unchanged
fails on the code: both operations replace the whole selection object,
so the flag of `u1` (absent from the loaded set) drops from `true` to
`false`. -/
theorem selection_bulk_ops_counterexample :
    ¬ (lookupFlag deselectAllMissingUsers "u1" =
        lookupFlag [("u1", true)] "u1" ∧
       lookupFlag (selectAllMissingUsers [⟨"u2", "n2", [], []⟩]) "u1" =
        lookupFlag [("u1", true)] "u1") := by
  intro h
  exact absurd h.1 (by decide)

/-- C4 amended: `toggleSelection` changes only the toggled identifier's
flag; `selectAllMissingUsers` replaces the selection map by exactly the
loaded identifiers mapped to `true` (every other identifier reads
unselected afterwards), and `deselectAllMissingUsers` replaces it by the
empty map (every identifier reads unselected afterwards). -/
theorem selection_operations_frame (m : SelectionMap) (userId k : String)
    (users : List MissingUser) :
    (k ≠ userId →
      lookupFlag (toggleSelection m userId) k = lookupFlag m k) ∧
    lookupFlag (toggleSelection m userId) userId = !lookupFlag m userId ∧
    lookupFlag (selectAllMissingUsers users) k =
      users.any (fun u => u.id == k) ∧
    lookupFlag deselectAllMissingUsers k = false := by
  refine ⟨?_, ?_, ?_, rfl⟩
  · intro hk
    exact lookupFlag_setFlag_other m userId (!lookupFlag m userId) k hk
  · exact lookupFlag_setFlag_self m userId (!lookupFlag m userId)
  · exact lookupFlag_selectAll users k

/-- C4 witness: toggling `u1` leaves `u2` untouched on a concrete map. -/
theorem selection_operations_frame_witness :
    lookupFlag (toggleSelection [("u1", false), ("u2", true)] "u1") "u2" =
      lookupFlag [("u1", false), ("u2", true)] "u2" :=
  (selection_operations_frame [("u1", false), ("u2", true)] "u1" "u2" []).1
    (by decide)

/-! ### Claim theorems: page range, public-status toggle -/

/-- C8: for a loaded result page, both `makePageInfo` implementations
render `start - end / total` with `start = offset` and
`end = min (offset + pageSize) total`. -/
theorem makePageInfo_range (offset total pageSize : Nat) :
    makePageInfo (some ⟨offset, total⟩) pageSize =
      toString offset ++ " - " ++
        toString (min (offset + pageSize) total) ++ " / " ++ toString total ∧
    makePageInfoHistory (some ⟨offset, total⟩) pageSize =
      toString offset ++ " - " ++
        toString (min (offset + pageSize) total) ++ " / " ++ toString total :=
  ⟨rfl, rfl⟩

/-- C9: when the server answers each public-status PUT with the posted
value, performing the row action twice returns the row's public flag to
its original value. -/
theorem togglePublicStatus_double_toggle (server : Bool → Option Bool)
    (hserver : ∀ b, server b = some b) (p : Bool) :
    applyToggleAction server (applyToggleAction server p) = p := by
  simp [applyToggleAction, togglePublicStatus, hserver]

/-- C9 witness: two toggles on an echoing server starting from `true`. -/
theorem togglePublicStatus_double_toggle_witness :
    applyToggleAction echoServer (applyToggleAction echoServer true) = true :=
  togglePublicStatus_double_toggle echoServer (fun _ => rfl) true

/-- C10: when the PUT fails, `togglePublicStatus` returns `undefined`
(`none`) and raises the error toast, and the row action leaves the
row's public flag unchanged. -/
theorem togglePublicStatus_error_leaves_state (server : Bool → Option Bool)
    (p : Bool) (h : server (!p) = none) :
    (togglePublicStatus server p).result = none ∧
    (togglePublicStatus server p).errorToast = true ∧
    applyToggleAction server p = p := by
  simp [togglePublicStatus, applyToggleAction, h]

/-- C10 witness: a server that fails every request leaves a `true` flag
at `true`. -/
theorem togglePublicStatus_error_leaves_state_witness :
    (togglePublicStatus (fun _ => none) true).result = none ∧
    (togglePublicStatus (fun _ => none) true).errorToast = true ∧
    applyToggleAction (fun _ => none) true = true :=
  togglePublicStatus_error_leaves_state (fun _ => none) true rfl

/-! ### Polling-loop lemmas -/

lemma nonTerminal_not_success {st : TaskStatus} (h : st.isTerminal = false) :
    st ≠ TaskStatus.success := by
  intro hc
  rw [hc] at h
  exact absurd h (by simp [TaskStatus.isTerminal])

lemma nonTerminal_not_failure {st : TaskStatus} (h : st.isTerminal = false) :
    st ≠ TaskStatus.failure := by
  intro hc
  rw [hc] at h
  exact absurd h (by simp [TaskStatus.isTerminal])

lemma terminal_success_or_failure {st : TaskStatus}
    (h : st.isTerminal = true) :
    st = TaskStatus.success ∨ st = TaskStatus.failure := by
  cases st <;> simp_all [TaskStatus.isTerminal]

lemma pollStatusLoop_count_le (statuses : Nat → TaskStatus)
    (budget index : Nat) :
    (pollStatusLoop statuses budget index).2 ≤ budget := by
  induction budget generalizing index with
  | zero => simp [pollStatusLoop]
  | succ n ih =>
      unfold pollStatusLoop
      by_cases h1 : statuses index = TaskStatus.success
      · simp [h1]
      · by_cases h2 : statuses index = TaskStatus.failure
        · simp [h1, h2]
        · simp only [h1, h2, if_false]
          exact Nat.succ_le_succ (ih (index + 1))

lemma pollStatusLoop_timeout (statuses : Nat → TaskStatus)
    (budget index : Nat)
    (h : ∀ i, i < budget → (statuses (index + i)).isTerminal = false) :
    pollStatusLoop statuses budget index = (.timeoutToast, budget) := by
  induction budget generalizing index with
  | zero => rfl
  | succ n ih =>
      have h0 : (statuses index).isTerminal = false := by
        simpa using h 0 (Nat.succ_pos n)
      unfold pollStatusLoop
      rw [if_neg (nonTerminal_not_success h0),
        if_neg (nonTerminal_not_failure h0)]
      have hrec : pollStatusLoop statuses n (index + 1) = (.timeoutToast, n) := by
        refine ih (index + 1) (fun i hi => ?_)
        have := h (i + 1) (Nat.succ_lt_succ hi)
        have harith : index + (i + 1) = index + 1 + i := by omega
        rwa [harith] at this
      rw [hrec]

lemma pollStatusLoop_terminal (statuses : Nat → TaskStatus)
    (budget index k : Nat) (hk : k < budget)
    (hbefore : ∀ i, i < k → (statuses (index + i)).isTerminal = false)
    (hterm : (statuses (index + k)).isTerminal = true) :
    pollStatusLoop statuses budget index =
      (if statuses (index + k) = TaskStatus.success then PollOutcome.completed
        else PollOutcome.failureToast, k + 1) := by
  induction k generalizing budget index with
  | zero =>
      obtain ⟨n, rfl⟩ : ∃ n, budget = n + 1 :=
        ⟨budget - 1, by omega⟩
      have hterm0 : (statuses index).isTerminal = true := by
        simpa using hterm
      unfold pollStatusLoop
      rcases terminal_success_or_failure hterm0 with hs | hf
      · simp [hs]
      · simp [hf]
  | succ j ih =>
      obtain ⟨n, rfl⟩ : ∃ n, budget = n + 1 :=
        ⟨budget - 1, by omega⟩
      have h0 : (statuses index).isTerminal = false := by
        simpa using hbefore 0 (Nat.succ_pos j)
      unfold pollStatusLoop
      rw [if_neg (nonTerminal_not_success h0),
        if_neg (nonTerminal_not_failure h0)]
      have harith : index + (j + 1) = index + 1 + j := by omega
      have hrec := ih n (index + 1) (by omega)
        (fun i hi => by
          have := hbefore (i + 1) (Nat.succ_lt_succ hi)
          have ha : index + (i + 1) = index + 1 + i := by omega
          rwa [ha] at this)
        (by rwa [harith] at hterm)
      rw [hrec]
      rw [harith]

lemma statusFetchCount_cons_status (i : Nat) (es : List ExecEvent) :
    statusFetchCount (.statusFetch i :: es) = statusFetchCount es + 1 := by
  simp [statusFetchCount]

lemma statusFetchCount_cons_result (i : Nat) (es : List ExecEvent) :
    statusFetchCount (.resultFetch i :: es) = statusFetchCount es := by
  simp [statusFetchCount]

/-- The execute polling loop follows the same status-driven control as
the validation polling loop: same outcome, and its status-fetch count is
the validation loop's fetch count. -/
lemma pollExecuteLoop_matches_statusLoop (statuses : Nat → TaskStatus)
    (budget index : Nat) :
    (pollExecuteLoop statuses budget index).1 =
      (pollStatusLoop statuses budget index).1 ∧
    statusFetchCount (pollExecuteLoop statuses budget index).2 =
      (pollStatusLoop statuses budget index).2 := by
  induction budget generalizing index with
  | zero => exact ⟨rfl, rfl⟩
  | succ n ih =>
      unfold pollExecuteLoop pollStatusLoop
      by_cases h1 : statuses index = TaskStatus.success
      · simp [h1, statusFetchCount]
      · by_cases h2 : statuses index = TaskStatus.failure
        · simp [h1, h2, statusFetchCount]
        · simp only [h1, h2, if_false]
          refine ⟨(ih (index + 1)).1, ?_⟩
          rw [statusFetchCount_cons_status, statusFetchCount_cons_result]
          exact congrArg (· + 1) (ih (index + 1)).2

/-- A concrete status history: two non-terminal polls, then `SUCCESS`. -/
def sampleStatuses : Nat → TaskStatus :=
  fun i => if i < 2 then TaskStatus.started else TaskStatus.success

/-- C2: both bulk polling loops issue at most `maxAttempts` status
fetches; when no terminal status is observed within the budget they end
with the timeout toast after exactly `maxAttempts` fetches; and when the
first terminal status is observed at fetch `k < maxAttempts` they stop
right there (exactly `k + 1` fetches), ending normally on `SUCCESS` and
with the failure toast on `FAILURE`. -/
theorem bulk_polling_contract (statuses : Nat → TaskStatus)
    (maxAttempts : Nat) :
    ((pollValidationStatus statuses maxAttempts).2 ≤ maxAttempts ∧
      statusFetchCount (pollExecuteStatus statuses maxAttempts).2 ≤
        maxAttempts) ∧
    (noTerminalBefore statuses maxAttempts →
      pollValidationStatus statuses maxAttempts =
        (PollOutcome.timeoutToast, maxAttempts) ∧
      (pollExecuteStatus statuses maxAttempts).1 = PollOutcome.timeoutToast ∧
      statusFetchCount (pollExecuteStatus statuses maxAttempts).2 =
        maxAttempts) ∧
    (∀ k, k < maxAttempts → noTerminalBefore statuses k →
      (statuses k).isTerminal = true →
      (pollValidationStatus statuses maxAttempts).2 = k + 1 ∧
      statusFetchCount (pollExecuteStatus statuses maxAttempts).2 = k + 1 ∧
      (pollValidationStatus statuses maxAttempts).1 =
        (if statuses k = TaskStatus.success then PollOutcome.completed
          else PollOutcome.failureToast) ∧
      (pollExecuteStatus statuses maxAttempts).1 =
        (if statuses k = TaskStatus.success then PollOutcome.completed
          else PollOutcome.failureToast)) := by
  have hmatch := pollExecuteLoop_matches_statusLoop statuses maxAttempts 0
  refine ⟨⟨pollStatusLoop_count_le statuses maxAttempts 0, ?_⟩, ?_, ?_⟩
  · rw [show pollExecuteStatus statuses maxAttempts =
      pollExecuteLoop statuses maxAttempts 0 from rfl, hmatch.2]
    exact pollStatusLoop_count_le statuses maxAttempts 0
  · intro hno
    have ht := pollStatusLoop_timeout statuses maxAttempts 0
      (fun i hi => by simpa using hno i hi)
    refine ⟨ht, ?_, ?_⟩
    · rw [show pollExecuteStatus statuses maxAttempts =
        pollExecuteLoop statuses maxAttempts 0 from rfl, hmatch.1, ht]
    · rw [show pollExecuteStatus statuses maxAttempts =
        pollExecuteLoop statuses maxAttempts 0 from rfl, hmatch.2, ht]
  · intro k hk hno hterm
    have ht := pollStatusLoop_terminal statuses maxAttempts 0 k hk
      (fun i hi => by simpa using hno i hi) (by simpa using hterm)
    have hz : (0 : Nat) + k = k := Nat.zero_add k
    rw [hz] at ht
    refine ⟨?_, ?_, ?_, ?_⟩
    · rw [show pollValidationStatus statuses maxAttempts =
        pollStatusLoop statuses maxAttempts 0 from rfl, ht]
    · rw [show pollExecuteStatus statuses maxAttempts =
        pollExecuteLoop statuses maxAttempts 0 from rfl, hmatch.2, ht]
    · rw [show pollValidationStatus statuses maxAttempts =
        pollStatusLoop statuses maxAttempts 0 from rfl, ht]
    · rw [show pollExecuteStatus statuses maxAttempts =
        pollExecuteLoop statuses maxAttempts 0 from rfl, hmatch.1, ht]

/-- C2 witness: with two `STARTED` polls followed by `SUCCESS` and a
budget of 5, both loops stop after exactly 3 status fetches and end
normally. -/
theorem bulk_polling_contract_witness :
    (pollValidationStatus sampleStatuses 5).2 = 3 ∧
    statusFetchCount (pollExecuteStatus sampleStatuses 5).2 = 3 ∧
    (pollValidationStatus sampleStatuses 5).1 =
      (if sampleStatuses 2 = TaskStatus.success then PollOutcome.completed
        else PollOutcome.failureToast) ∧
    (pollExecuteStatus sampleStatuses 5).1 =
      (if sampleStatuses 2 = TaskStatus.success then PollOutcome.completed
        else PollOutcome.failureToast) :=
  (bulk_polling_contract sampleStatuses 5).2.2 2 (by decide) (by decide)
    (by decide)

/-- C6 (code evaluation at the failing input): when the very first
execute-status poll already reports `SUCCESS`, `pollExecuteStatus`
returns after that single status fetch and never fetches the result
summary — neither an interim fetch (those happen only on non-terminal
ticks) nor a final fetch after `SUCCESS`, which the specification
requires. -/
theorem pollExecuteStatus_success_never_fetches_result :
    pollExecuteStatus (fun _ => TaskStatus.success) 3 =
      (PollOutcome.completed, [ExecEvent.statusFetch 0]) ∧
    hasResultFetch (pollExecuteStatus (fun _ => TaskStatus.success) 3).2 =
      false := by
  exact ⟨rfl, rfl⟩

/-! ### Claim theorems: error-toast mapping, upload validation -/

/-- C5 counterexample: the shared handler has no 409 and no 502 arm.
A 409 response gets the same generic fallback toast as a plain 500 and
not the conflict toast the page-level handlers use, and a 502 response
also gets the generic fallback rather than the upstream-unavailability
toast reserved for 503. -/
theorem handleFetchError_409_502_fall_through :
    handleFetchError 409 false = handleFetchError 500 false ∧
    (handleFetchError 409 false).toastTitle = "toast.error.server.title" ∧
    (handleFetchError 409 false).toastTitle ≠ conflictToastTitle ∧
    (handleFetchError 502 false).toastTitle = "toast.error.server.title" ∧
    (handleFetchError 502 false).toastTitle ≠
      (handleFetchError 503 false).toastTitle := by
  refine ⟨rfl, rfl, ?_, rfl, ?_⟩ <;> decide

/-- C5 amended: the shared handler maps 400 to the validation toast,
401 to the auth toast with a re-login redirect exactly on non-public
routes, 403 to forbidden, 404 to not-found, 503 to
upstream-unavailability, and every other status — 409 and 502
included — to the generic fallback toast without redirecting. -/
theorem handleFetchError_mapping (routeIsPublic : Bool) (status : Nat) :
    handleFetchError 400 routeIsPublic =
      ⟨"toast.error.bad-request.title", false⟩ ∧
    handleFetchError 401 routeIsPublic =
      ⟨"toast.error.unauthorized.title", !routeIsPublic⟩ ∧
    handleFetchError 403 routeIsPublic =
      ⟨"toast.error.forbidden.title", false⟩ ∧
    handleFetchError 404 routeIsPublic =
      ⟨"toast.error.not-found.title", false⟩ ∧
    handleFetchError 503 routeIsPublic =
      ⟨"toast.error.service-unavailable.title", false⟩ ∧
    (status ∉ ([400, 401, 403, 404, 503] : List Nat) →
      handleFetchError status routeIsPublic =
        ⟨"toast.error.server.title", false⟩) := by
  refine ⟨rfl, rfl, rfl, rfl, rfl, ?_⟩
  intro h
  simp only [List.mem_cons, List.mem_singleton, not_or] at h
  obtain ⟨h1, h2, h3, h4, h5, -⟩ := h
  simp [handleFetchError, h1, h2, h3, h4, h5]

/-- C5 amended witness: a 409 on a non-public route falls to the generic
fallback and does not redirect. -/
theorem handleFetchError_mapping_witness :
    handleFetchError 409 false = ⟨"toast.error.server.title", false⟩ :=
  (handleFetchError_mapping false 409).2.2.2.2.2 (by decide)

/-- C7: `validateFileFormat` reports the file-format error exactly when
a file is present whose lowercased name ends in none of the allowed
extensions and whose MIME type is outside the allow-list; the
repository-required error exactly when the repository selection is
missing; and the file-required error exactly when no file is chosen.
The function is pure, so these rejections precede any network call. -/
theorem validateFileFormat_characterization (state : UploadFormState) :
    (FormError.mk "file" "bulk.file-format-error" ∈
        validateFileFormat state ↔
      ∃ f, state.file = some f ∧
        (allowedExtensions.any (fun ext => (f.name.toLower).endsWith ext))
          = false ∧
        allowedMimeTypes.contains f.type = false) ∧
    (FormError.mk "repository" "bulk.repository-required" ∈
        validateFileFormat state ↔
      repoMissing state.repository = true) ∧
    (FormError.mk "file" "bulk.file-required" ∈ validateFileFormat state ↔
      state.file = none) := by
  obtain ⟨repo, file⟩ := state
  unfold validateFileFormat
  cases file with
  | none =>
      by_cases hr : repoMissing repo = true
      · simp [hr]
      · have hr2 : repoMissing repo = false := by
          cases hv : repoMissing repo
          · rfl
          · exact absurd hv hr
        simp [hr2]
  | some f =>
      by_cases hext :
          (allowedExtensions.any fun ext => (f.name.toLower).endsWith ext)
            = true <;>
        by_cases hmime : allowedMimeTypes.contains f.type = true <;>
          by_cases hr : repoMissing repo = true <;>
            simp_all

/-- C7 witness: with no repository and no file, the file-required error
is reported. -/
theorem validateFileFormat_characterization_witness :
    FormError.mk "file" "bulk.file-required" ∈
      validateFileFormat ⟨none, none⟩ :=
  (validateFileFormat_characterization ⟨none, none⟩).2.2.mpr rfl
